import Mathlib

/-!
Shallow embedding of the real-estate agent's data layer and intent-dispatch
graph (files `src/tools/repository.py`, `src/tools/calculations.py`,
`src/graph/app_graph.py`).

A dataframe is a list of rows of the normalized ledger table produced by
`Repo.from_parquet`: the string columns hold `Option String` (missing values,
pandas `NaN`, are `none`), `year_int` holds `Option Int` (`to_numeric` with
coercion failure as `none`), and `profit` holds a rational number (the float
column, modelled exactly).  Pandas equality comparisons against `NaN` are
false, which `Option` equality against `some _` reproduces.
-/

structure Row where
  entity_name : Option String := none
  property_name : Option String := none
  tenant_name : Option String := none
  ledger_type : Option String := none
  ledger_group : Option String := none
  ledger_category : Option String := none
  ledger_description : Option String := none
  month : Option String := none
  quarter : Option String := none
  year : Option String := none
  year_int : Option Int := none
  profit : Rat := 0
deriving DecidableEq

/-- The columns of the normalized dataframe (`df.columns` after
`Repo.from_parquet`). -/
def dfColumns : List String :=
  ["entity_name", "property_name", "tenant_name", "ledger_type",
   "ledger_group", "ledger_category", "ledger_description", "month",
   "quarter", "year", "year_int", "profit"]

/-- Result of `pnl` / `Repo.property_pnl`: the
`{"revenue": ..., "expenses": ..., "net": ...}` dictionary. -/
structure Pnl where
  revenue : Rat
  expenses : Rat
  net : Rat
deriving DecidableEq

/-- The `{"year": ..., "quarter": ..., "month": ...}` period dictionary
built by the `calc` node. -/
structure Period where
  year : Option Int
  quarter : Option String
  month : Option String
deriving DecidableEq

/- Python string comparison is lexicographic on code points; `strLe` embeds
it as a boolean comparator on the character lists. -/

def listCharLe : List Char → List Char → Bool
  | [], _ => true
  | _ :: _, [] => false
  | a :: as, b :: bs =>
    if a.toNat < b.toNat then true
    else if b.toNat < a.toNat then false
    else listCharLe as bs

def strLe (a b : String) : Bool := listCharLe a.data b.data

/-- Python substring test `needle in hay` on lists of character codes. -/
def codesContain (hay needle : List Nat) : Bool :=
  (List.range (hay.length + 1)).any (fun i => needle.isPrefixOf (hay.drop i))

/-- Python `str.lower()` as a list of character codes (ASCII case folding,
which covers the dataset's names). -/
def strLower (s : String) : List Nat :=
  s.data.map (fun c => if 65 ≤ c.toNat && c.toNat ≤ 90 then c.toNat + 32 else c.toNat)

/-- Whitespace character codes removed by Python `str.strip()`. -/
def wsCode (n : Nat) : Bool := n == 32 || (9 ≤ n && n ≤ 13)

/-- Python `str.strip()` on a list of character codes. -/
def trimCodes (l : List Nat) : List Nat :=
  ((l.dropWhile wsCode).reverse.dropWhile wsCode).reverse

/-- Pandas `Series.unique` / first-occurrence deduplication (auxiliary,
carrying the set of already seen elements). -/
def uniqueFirstAux {α : Type} [DecidableEq α] (seen : List α) : List α → List α
  | [] => []
  | x :: xs =>
    if seen.contains x then uniqueFirstAux seen xs
    else x :: uniqueFirstAux (x :: seen) xs

/-- Pandas `drop_duplicates` / `unique`: keep the first occurrence of each
value, in order. -/
def uniqueFirst {α : Type} [DecidableEq α] (l : List α) : List α :=
  uniqueFirstAux [] l

/-- The sort order used for `sort_values` on the property-name column. -/
def strLeProp (a b : String) : Prop := strLe a b = true

instance : DecidableRel strLeProp := fun a b => instDecidableEqBool (strLe a b) true

/-- `Repo.list_properties`: unique non-null property names, sorted
(`dropna → drop_duplicates → sort_values → to_list`). -/
def list_properties (rows : List Row) : List String :=
  List.insertionSort strLeProp (uniqueFirst (rows.filterMap Row.property_name))

/-- `Repo.search_property`: substring search over the lowered names; falls
back to the first `limit` properties when nothing matches. -/
def search_property (rows : List Row) (query : String) (limit : Nat) : List String :=
  let q := trimCodes (strLower query)
  let props := list_properties rows
  let hits := props.filter (fun p => codesContain (strLower p) q)
  if hits.isEmpty then props.take limit else hits.take limit

/-- `Repo.filter_timeframe`: equality filters on `year_int`, `quarter`,
`month`, each applied only when the argument is not `None`. -/
def filter_timeframe (rows : List Row) (year : Option Int)
    (quarter : Option String) (month : Option String) : List Row :=
  let df1 := match year with
    | none => rows
    | some y => rows.filter (fun r => r.year_int == some y)
  let df2 := match quarter with
    | none => df1
    | some q => df1.filter (fun r => r.quarter == some q)
  match month with
  | none => df2
  | some m => df2.filter (fun r => r.month == some m)

/-- `Repo.filter_property`: `df[df["property_name"].fillna("") == name]`,
identity when the name is `None`. -/
def filter_property (df : List Row) (property_name : Option String) : List Row :=
  match property_name with
  | none => df
  | some n => df.filter (fun r => r.property_name.getD "" == n)

/-- `Repo.filter_tenant`: the same shape on the tenant column. -/
def filter_tenant (df : List Row) (tenant_name : Option String) : List Row :=
  match tenant_name with
  | none => df
  | some n => df.filter (fun r => r.tenant_name.getD "" == n)

/-- `Repo.property_pnl`: timeframe filter, then
`df[df["property_name"].fillna("") == (property_name or "")]`, then the
revenue/expenses/net aggregation.  Note `property_name or ""` maps `None`
to the empty string, so a `None` argument keeps only rows with no property
name. -/
def property_pnl (rows : List Row) (property_name : Option String)
    (year : Option Int) (quarter : Option String) (month : Option String) : Pnl :=
  let df0 := filter_timeframe rows year quarter month
  let df := df0.filter (fun r => r.property_name.getD "" == property_name.getD "")
  { revenue := ((df.filter (fun r => r.ledger_type == some "revenue")).map Row.profit).sum
    expenses := ((df.filter (fun r => r.ledger_type == some "expenses")).map Row.profit).sum
    net := (df.map Row.profit).sum }

/-- `calculations.pnl`: revenue = sum of `profit` where `ledger_type ==
"revenue"`, expenses likewise for `"expenses"`, net = sum of `profit` over
the whole dataframe. -/
def pnl (df : List Row) : Pnl :=
  { revenue := ((df.filter (fun r => r.ledger_type == some "revenue")).map Row.profit).sum
    expenses := ((df.filter (fun r => r.ledger_type == some "expenses")).map Row.profit).sum
    net := (df.map Row.profit).sum }

/-- `calculations.property_summary`: timeframe filter, property filter
(identity on `None`), then `pnl`. -/
def property_summary (rows : List Row) (property_name : Option String)
    (year : Option Int) (quarter : Option String) (month : Option String) : Pnl :=
  pnl (filter_property (filter_timeframe rows year quarter month) property_name)

/-- Result of `calculations.compare_properties`. -/
structure Comparison where
  properties : List (String × Pnl)
  count : Nat
deriving DecidableEq

/-- `calculations.compare_properties`: raises `ValueError` (modelled as
`Except.error`) when fewer than two names are given, else one
`property_summary` per name. -/
def compare_properties (rows : List Row) (property_names : List String)
    (year : Option Int) (quarter : Option String) (month : Option String) :
    Except String Comparison :=
  if property_names.length < 2 then
    .error "At least 2 properties required for comparison"
  else
    .ok { properties :=
            property_names.map
              (fun n => (n, property_summary rows (some n) year quarter month))
          count := property_names.length }

/-- A value of a dataframe column used as a `groupby` key (`dropna=False`
keeps the null key). -/
inductive GKey where
  | s (v : Option String)
  | i (v : Option Int)
  | r (v : Rat)
deriving DecidableEq

/-- The value a row has in a named column, `none` when the name is not a
column of the dataframe. -/
def colValue (r : Row) : String → Option GKey
  | "entity_name" => some (.s r.entity_name)
  | "property_name" => some (.s r.property_name)
  | "tenant_name" => some (.s r.tenant_name)
  | "ledger_type" => some (.s r.ledger_type)
  | "ledger_group" => some (.s r.ledger_group)
  | "ledger_category" => some (.s r.ledger_category)
  | "ledger_description" => some (.s r.ledger_description)
  | "month" => some (.s r.month)
  | "quarter" => some (.s r.quarter)
  | "year" => some (.s r.year)
  | "year_int" => some (.i r.year_int)
  | "profit" => some (.r r.profit)
  | _ => none

/-- `df.groupby(c, dropna=False)["profit"].sum()`: one entry per distinct
key, carrying the sum of `profit` over the rows with that key. -/
def groupbySum (df : List Row) (c : String) : List (GKey × Rat) :=
  let key := fun r => (colValue r c).getD (.s none)
  (uniqueFirst (df.map key)).map
    (fun k => (k, ((df.filter (fun r => key r == k)).map Row.profit).sum))

/-- The `sort_values()` order on the summed series: ascending by value. -/
def valLe (a b : GKey × Rat) : Prop := a.2 ≤ b.2

instance : DecidableRel valLe := fun a b => inferInstanceAs (Decidable (a.2 ≤ b.2))

instance : IsTotal (GKey × Rat) valLe := ⟨fun a b => le_total a.2 b.2⟩

instance : IsTrans (GKey × Rat) valLe := ⟨fun _ _ _ h1 h2 => le_trans h1 h2⟩

/-- Ascending sort by summed value (`sort_values()`). -/
def sortByVal (l : List (GKey × Rat)) : List (GKey × Rat) :=
  List.insertionSort valLe l

/-- Pandas `head(n)`: all rows when `n` is `None`, the first `n` when
`n ≥ 0`, and all but the last `|n|` when `n` is negative. -/
def seriesHead {α : Type} (l : List α) : Option Int → List α
  | none => l
  | some n => if 0 ≤ n then l.take n.toNat else l.take (l.length - (-n).toNat)

/-- `calculations.top_expenses`: timeframe and property filters, restrict to
`ledger_type == "expenses"`, return `[]` when `group_by` is not a column,
else group by it, sum `profit`, sort ascending and take the head. -/
def top_expenses (rows : List Row) (property_name : Option String)
    (year : Option Int) (quarter : Option String) (month : Option String)
    (group_by : String) (top_n : Option Int) : List (GKey × Rat) :=
  let df0 := filter_timeframe rows year quarter month
  let df1 := filter_property df0 property_name
  let df := df1.filter (fun r => r.ledger_type == some "expenses")
  if dfColumns.contains group_by then
    seriesHead (sortByVal (groupbySum df group_by)) top_n
  else []

/-!
The `calc` node of `src/graph/app_graph.py` and the graph wiring of
`build_graph`.
-/

/-- The `slots` dictionary produced by the extractor (`SlotOut.model_dump`);
the default value models the empty dictionary used when the state carries no
slots. -/
structure Slots where
  properties : List String := []
  tenants : List String := []
  year : Option Int := none
  quarter : Option String := none
  month : Option String := none
  breakdown_by : Option String := none
  top_n : Option Int := some 8
deriving DecidableEq

/-- The intent-specific `result` dictionaries built by the `calc` node,
one constructor per branch. -/
inductive ResultVal where
  | listProps (properties : List String)
  | propSummary (property : String) (period : Period) (p : Pnl)
  | comparison (c : Comparison) (period : Period)
  | topExp (property : Option String) (period : Period) (items : List (GKey × Rat))
  | assetDetails (property : String) (period : Period) (p : Pnl)
      (tenants : List String) (ledger_groups : List String) (total_records : Nat)
  | tenantSummary (tenant : String) (period : Period) (p : Pnl)
  | fallbackNote
deriving DecidableEq

/-- What the `calc` node returns: either
`{"result": res, "need_clarification": False}` or
`{"need_clarification": True, "clarification_question": q}`. -/
inductive CalcOut where
  | ok (result : ResultVal)
  | clarify (q : String)
deriving DecidableEq

/-- A single quote character (used inside the clarification text). -/
def squote : String := String.singleton (Char.ofNat 39)

/-- The clarification question for an invalid property name. -/
def invalidPropQ (name : String) (valid : List String) : String :=
  "The property address " ++ squote ++ name ++ squote ++
    " does not exist in the dataset. Available properties: " ++
    String.intercalate ", " (valid.take 3) ++ "..."

/-- The clarification question for `asset_details` without a property. -/
def assetDetailsQ (valid : List String) : String :=
  "Which property would you like details for? For example: " ++
    String.intercalate ", " (valid.take 3)

/-- The clarification question for `compare_properties` with fewer than two
properties. -/
def comparePropsQ (valid : List String) : String :=
  "Please specify at least two properties to compare. For example: " ++
    String.intercalate ", " (valid.take 2)

/-- One step of the validation loop in `calc`: `some c` when the extracted
name `p` is accepted (with `c` the canonically cased name kept), `none`
when it is rejected. -/
def canonMatch (rows : List Row) (p : String) : Option String :=
  if (list_properties rows).contains p then some p
  else
    match search_property rows p 1 with
    | [] => none
    | m :: _ => if strLower m == strLower p then some m else none

/-- The validation loop of `calc`: returns `(validated_props,
invalid_props)`, each in the original order. -/
def validateProps (rows : List Row) : List String → List String × List String
  | [] => ([], [])
  | p :: ps =>
    let rest := validateProps rows ps
    match canonMatch rows p with
    | some c => (c :: rest.1, rest.2)
    | none => (rest.1, p :: rest.2)

/-- Python truthiness of an optional string (`None` and `""` are falsy). -/
def strTruthy : Option String → Bool
  | none => false
  | some s => !s.isEmpty

/-- The `calc` node.  `intent` and `slots` enter through `state.get` with
their defaults; the result is `none` only if an embedded Python exception
(the `ValueError` of `compare_properties`) would escape. -/
def calcNode (rows : List Row) (intent? : Option String) (slots? : Option Slots) :
    Option CalcOut :=
  let intent := intent?.getD "fallback"
  let s := slots?.getD {}
  let tenants := s.tenants
  let year := s.year
  let quarter := s.quarter
  let month := s.month
  let topN := s.top_n
  let breakdown := match s.breakdown_by with
    | some b => if b.isEmpty then "ledger_group" else b
    | none => "ledger_group"
  let period : Period := ⟨year, quarter, month⟩
  let valid := list_properties rows
  let vp := validateProps rows s.properties
  match vp.2 with
  | bad :: _ => some (.clarify (invalidPropQ bad valid))
  | [] =>
    let props := vp.1
    if intent == "asset_details" && props.isEmpty then
      some (.clarify (assetDetailsQ valid))
    else if intent == "compare_properties" && props.length < 2 then
      some (.clarify (comparePropsQ valid))
    else if intent == "list_properties" then
      some (.ok (.listProps valid))
    else if intent == "property_summary" then
      let prop := props.head?
      let df0 := filter_timeframe rows year quarter month
      let df := if strTruthy prop then filter_property df0 prop else df0
      some (.ok (.propSummary (if strTruthy prop then prop.getD "" else "Entire Portfolio")
        period (pnl df)))
    else if intent == "compare_properties" then
      match compare_properties rows props year quarter month with
      | .error _ => none
      | .ok c => some (.ok (.comparison c period))
    else if intent == "top_expenses" then
      let prop := props.head?
      some (.ok (.topExp prop period
        (top_expenses rows prop year quarter month breakdown topN)))
    else if intent == "asset_details" then
      match props.head? with
      | none => some (.clarify (assetDetailsQ valid))
      | some prop =>
        let df0 := filter_timeframe rows year quarter month
        let df := filter_property df0 (some prop)
        some (.ok (.assetDetails prop period (pnl df)
          ((uniqueFirst (df.filterMap Row.tenant_name)).take 5)
          (uniqueFirst (df.filterMap Row.ledger_group))
          df.length))
    else if intent == "tenant_summary" then
      match tenants.head? with
      | none => some (.clarify "Which tenant do you want to analyze?")
      | some t =>
        let df0 := filter_timeframe rows year quarter month
        let df := filter_tenant df0 (some t)
        some (.ok (.tenantSummary t period (pnl df)))
    else
      some (.ok .fallbackNote)

/-- The node names registered by `build_graph`. -/
def graphNodes : List String := ["router", "extractor", "calc", "clarify", "respond"]

/-- The nodes of the compiled graph, with the virtual start and end. -/
inductive GNode where
  | start | router | extractor | calcN | clarify | respond | terminal
deriving DecidableEq

/-- The `after_calc` branch: `"clarify"` when `state.get("need_clarification")`
is truthy, else `"respond"`. -/
def after_calc (needClar : Option Bool) : String :=
  if needClar.getD false then "clarify" else "respond"

/-- The edges of `build_graph`: the linear chain, the one conditional edge
out of `calc`, and the two edges into `END`. -/
def graphStep (needClar : Option Bool) : GNode → Option GNode
  | .start => some .router
  | .router => some .extractor
  | .extractor => some .calcN
  | .calcN => some (if after_calc needClar == "clarify" then .clarify else .respond)
  | .clarify => some .terminal
  | .respond => some .terminal
  | .terminal => none

/-- The list of nodes visited from a node, following edges while fuel
remains. -/
def runFrom (needClar : Option Bool) : Nat → GNode → List GNode
  | 0, _ => []
  | fuel + 1, g =>
    match graphStep needClar g with
    | none => []
    | some g2 => g2 :: runFrom needClar fuel g2

/-- The trace of one invocation of the compiled graph. -/
def runTrace (needClar : Option Bool) : List GNode :=
  runFrom needClar 6 .start


/-!
Helper lemmas.
-/

/-- Summing a filtered column equals summing the column with zeros outside
the predicate. -/
lemma sum_map_filter_ite (p : Row → Bool) (df : List Row) :
    ((df.filter p).map Row.profit).sum =
      (df.map (fun r => if p r then r.profit else 0)).sum := by
  induction df with
  | nil => rfl
  | cons r rs ih =>
    by_cases h : p r <;> simp [List.filter_cons, h, ih]

/-- The total profit splits into the revenue rows, the expense rows and the
remaining rows. -/
lemma profit_sum_split (df : List Row) :
    (df.map Row.profit).sum =
      ((df.filter (fun r => r.ledger_type == some "revenue")).map Row.profit).sum
      + ((df.filter (fun r => r.ledger_type == some "expenses")).map Row.profit).sum
      + (df.map (fun r =>
          if r.ledger_type ≠ some "revenue" ∧ r.ledger_type ≠ some "expenses"
          then r.profit else 0)).sum := by
  induction df with
  | nil => simp
  | cons r rs ih =>
    by_cases h1 : r.ledger_type = some "revenue"
    · have h2 : r.ledger_type ≠ some "expenses" := by simp [h1]
      simp [List.filter_cons, h1, h2, ih]; ring
    · by_cases h2 : r.ledger_type = some "expenses"
      · simp [List.filter_cons, h1, h2, ih]; ring
      · simp [List.filter_cons, h1, h2, ih]; ring

/-!
Theorems for the claims.
-/

/-- Claim C2: the compiled graph has exactly the five nodes router,
extractor, calc, clarify, respond; every run steps router, extractor, calc,
then exactly one of clarify (iff `need_clarification` is truthy) or respond,
then ends, visiting no node twice. -/
theorem graph_five_nodes_one_branch :
    graphNodes.length = 5 ∧ graphNodes.Nodup ∧
    ∀ b : Option Bool,
      runTrace b = [GNode.router, GNode.extractor, GNode.calcN,
          if b.getD false then GNode.clarify else GNode.respond, GNode.terminal]
      ∧ (runTrace b).Nodup
      ∧ (GNode.clarify ∈ runTrace b ↔ b.getD false = true)
      ∧ (GNode.respond ∈ runTrace b ↔ b.getD false = false)
      ∧ GNode.router ∈ runTrace b ∧ GNode.extractor ∈ runTrace b
      ∧ GNode.calcN ∈ runTrace b := by
  refine ⟨by decide, by decide, fun b => ?_⟩
  rcases b with _ | b
  · decide
  · cases b <;> decide

/-- Claim C3: `pnl` returns the sum of `profit` over the rows with
`ledger_type = "revenue"` as revenue, over the rows with
`ledger_type = "expenses"` as expenses, and over all rows as net. -/
theorem pnl_revenue_expenses_net (df : List Row) :
    (pnl df).revenue
        = (df.map (fun r => if r.ledger_type = some "revenue" then r.profit else 0)).sum
    ∧ (pnl df).expenses
        = (df.map (fun r => if r.ledger_type = some "expenses" then r.profit else 0)).sum
    ∧ (pnl df).net = (df.map Row.profit).sum := by
  refine ⟨?_, ?_, rfl⟩ <;>
    · show ((df.filter _).map Row.profit).sum = _
      rw [sum_map_filter_ite]
      simp

/-- Claim C10: `net = revenue + expenses` holds exactly when the profit of
the rows whose `ledger_type` is neither `"revenue"` nor `"expenses"` sums to
zero; in general net is the total over all rows. -/
theorem pnl_net_additivity (df : List Row) :
    ((pnl df).net = (pnl df).revenue + (pnl df).expenses
      ↔ (df.map (fun r =>
          if r.ledger_type ≠ some "revenue" ∧ r.ledger_type ≠ some "expenses"
          then r.profit else 0)).sum = 0)
    ∧ (pnl df).net = (df.map Row.profit).sum := by
  refine ⟨?_, rfl⟩
  show (df.map Row.profit).sum =
      ((df.filter (fun r => r.ledger_type == some "revenue")).map Row.profit).sum
      + ((df.filter (fun r => r.ledger_type == some "expenses")).map Row.profit).sum
    ↔ _
  rw [profit_sum_split df]
  constructor <;> intro h <;> linarith

/-- A single revenue row attributed to property `"A"` (a counterexample
dataset). -/
def rowA : Row :=
  { property_name := some "A", ledger_type := some "revenue", profit := 1 }

/-- Claim C4 (corrected), counterexample: with a single revenue row carrying
a property name, `Repo.property_pnl` and `property_summary` disagree at
`property_name = None`: the former keeps only rows with no property name,
the latter keeps every row. -/
theorem property_pnl_none_differs :
    property_pnl [rowA] none none none none
      ≠ property_summary [rowA] none none none none := by
  intro h
  have h1 : (property_pnl [rowA] none none none none).net = 0 := rfl
  have h2 : (property_summary [rowA] none none none none).net = 1 := by
    show (List.map Row.profit [rowA]).sum = 1
    norm_num [rowA]
  rw [h, h2] at h1
  norm_num at h1

/-- Claim C4 (amended): for every property name that is not `None`, and every
year, quarter and month, `Repo.property_pnl` and `property_summary` return
the same revenue/expenses/net dictionary. -/
theorem property_pnl_eq_property_summary_of_some (rows : List Row) (n : String)
    (year : Option Int) (quarter month : Option String) :
    property_pnl rows (some n) year quarter month
      = property_summary rows (some n) year quarter month := rfl

/-- Claim C5: `filter_timeframe` keeps exactly the rows meeting every
non-`None` equality constraint on `year_int`, `quarter` and `month`, and
`filter_property` / `filter_tenant` keep exactly the rows whose
property/tenant name (missing treated as `""`) equals the given name,
unchanged when the name is `None`. -/
theorem filters_are_equality_predicates :
    (∀ rows year quarter month,
      filter_timeframe rows year quarter month =
        rows.filter (fun r =>
          (year.all (fun y => r.year_int == some y))
          && (quarter.all (fun q => r.quarter == some q))
          && (month.all (fun m => r.month == some m))))
    ∧ (∀ df n, filter_property df (some n)
        = df.filter (fun r => r.property_name.getD "" == n))
    ∧ (∀ df, filter_property df none = df)
    ∧ (∀ df n, filter_tenant df (some n)
        = df.filter (fun r => r.tenant_name.getD "" == n))
    ∧ (∀ df, filter_tenant df none = df) := by
  refine ⟨fun rows year quarter month => ?_, fun _ _ => rfl, fun _ => rfl,
    fun _ _ => rfl, fun _ => rfl⟩
  rcases year with _ | y <;> rcases quarter with _ | q <;> rcases month with _ | m <;>
    simp [filter_timeframe, List.filter_filter, Option.all_some, Option.all_none,
      Bool.and_comm, Bool.and_left_comm, Bool.and_assoc]

/-- The validated names are the accepted canonical names, in the original
order. -/
lemma validateProps_fst (rows : List Row) (ps : List String) :
    (validateProps rows ps).1 = ps.filterMap (canonMatch rows) := by
  induction ps with
  | nil => rfl
  | cons p ps ih =>
    cases h : canonMatch rows p <;>
      simp [validateProps, h, ih, List.filterMap_cons]

/-- The rejected names are the names the validation step rejects, in the
original order. -/
lemma validateProps_snd (rows : List Row) (ps : List String) :
    (validateProps rows ps).2 = ps.filter (fun p => (canonMatch rows p).isNone) := by
  induction ps with
  | nil => rfl
  | cons p ps ih =>
    cases h : canonMatch rows p <;>
      simp [validateProps, h, ih, List.filter_cons]

/-- `compare_properties` succeeds on two or more names. -/
lemma compare_properties_ok (rows : List Row) (names : List String)
    (year : Option Int) (quarter month : Option String) (h : 2 ≤ names.length) :
    compare_properties rows names year quarter month =
      .ok { properties := names.map
              (fun n => (n, property_summary rows (some n) year quarter month))
            count := names.length } := by
  unfold compare_properties
  rw [if_neg]
  omega

/-- The `calc` node never returns the exceptional outcome. -/
lemma calcNode_isSome (rows : List Row) (intent? : Option String)
    (slots? : Option Slots) : (calcNode rows intent? slots?).isSome = true := by
  simp only [calcNode]
  repeat' split
  all_goals try rfl
  exfalso
  rename_i hguard _ _ hcmp _ _ heq
  rw [compare_properties_ok] at heq
  · exact Except.noConfusion heq
  · exact Nat.le_of_not_lt (fun hlt => hguard (by simp [hcmp, hlt]))

/-- A rejected extracted property name makes `calc` return the
clarification naming the first rejected name. -/
lemma calcNode_invalid_clarifies (rows : List Row) (intent? : Option String)
    (s : Slots) (bad : String) (rest : List String)
    (h : (validateProps rows s.properties).2 = bad :: rest) :
    calcNode rows intent? (some s)
      = some (.clarify (invalidPropQ bad (list_properties rows))) := by
  simp only [calcNode, Option.getD_some, h]

/-- Claim C1 (amended): for every intent and slots the `calc` node returns
either a result or a clarification question (it never fails otherwise);
an extracted property name rejected by validation, an `asset_details`
intent with no property, a `compare_properties` intent with fewer than two
validated properties, and a `tenant_summary` intent with no tenant each
produce a clarification request. -/
theorem calc_answers_or_clarifies :
    (∀ rows intent? slots?, (calcNode rows intent? slots?).isSome = true)
    ∧ (∀ rows intent? (s : Slots) p, p ∈ s.properties → canonMatch rows p = none →
        ∃ q, calcNode rows intent? (some s) = some (.clarify q))
    ∧ (∀ rows (s : Slots), s.properties = [] →
        calcNode rows (some "asset_details") (some s)
          = some (.clarify (assetDetailsQ (list_properties rows))))
    ∧ (∀ rows (s : Slots), (validateProps rows s.properties).1.length < 2 →
        ∃ q, calcNode rows (some "compare_properties") (some s)
          = some (.clarify q))
    ∧ (∀ rows (s : Slots), s.tenants = [] →
        ∃ q, calcNode rows (some "tenant_summary") (some s)
          = some (.clarify q)) := by
  refine ⟨calcNode_isSome, ?_, ?_, ?_, ?_⟩
  · intro rows intent? s p hp hc
    rcases hsnd : (validateProps rows s.properties).2 with _ | ⟨bad, rest⟩
    · exfalso
      rw [validateProps_snd] at hsnd
      have hmem : p ∈ s.properties.filter (fun x => (canonMatch rows x).isNone) :=
        List.mem_filter.mpr ⟨hp, by simp [hc]⟩
      rw [hsnd] at hmem
      exact List.not_mem_nil p hmem
    · exact ⟨_, calcNode_invalid_clarifies rows intent? s bad rest hsnd⟩
  · intro rows s h
    have h2 : validateProps rows s.properties = ([], []) := by rw [h]; rfl
    simp [calcNode, h2]
  · intro rows s hlen
    rcases hsnd : (validateProps rows s.properties).2 with _ | ⟨bad, rest⟩
    · refine ⟨comparePropsQ (list_properties rows), ?_⟩
      simp [calcNode, hsnd, hlen]
    · exact ⟨_, calcNode_invalid_clarifies rows _ s bad rest hsnd⟩
  · intro rows s ht
    rcases hsnd : (validateProps rows s.properties).2 with _ | ⟨bad, rest⟩
    · refine ⟨"Which tenant do you want to analyze?", ?_⟩
      simp [calcNode, hsnd, ht]
    · exact ⟨_, calcNode_invalid_clarifies rows _ s bad rest hsnd⟩

/-- A dataset whose only property is `"Building 180"`. -/
def rows180 : List Row :=
  [{ property_name := some "Building 180", ledger_type := some "revenue", profit := 1 }]

/-- Extracted slots naming the property in lower case. -/
def slotsLower : Slots := { properties := ["building 180"] }

/-- Claim C1 (as stated), counterexample: the extracted name
`"building 180"` is absent from the dataset's property names, yet `calc`
returns a result, not a clarification request (the case-insensitive fuzzy
match validates it). -/
theorem calc_absent_name_no_clarification :
    "building 180" ∉ list_properties rows180
    ∧ ∃ res, calcNode rows180 (some "property_summary") (some slotsLower)
        = some (CalcOut.ok res) :=
  ⟨by decide, ⟨_, rfl⟩⟩

/-- Claim C1, witness: concrete clarification outcomes produced through
`calc_answers_or_clarifies` at explicit inputs. -/
theorem calc_answers_or_clarifies_witness :
    (∃ q, calcNode rows180 (some "fallback") (some { properties := ["zzz"] })
        = some (CalcOut.clarify q))
    ∧ calcNode rows180 (some "asset_details") (some {})
        = some (CalcOut.clarify (assetDetailsQ (list_properties rows180)))
    ∧ (∃ q, calcNode rows180 (some "compare_properties")
        (some { properties := ["Building 180"] }) = some (CalcOut.clarify q))
    ∧ (∃ q, calcNode rows180 (some "tenant_summary") (some {})
        = some (CalcOut.clarify q)) :=
  ⟨calc_answers_or_clarifies.2.1 rows180 (some "fallback") { properties := ["zzz"] }
      "zzz" (by decide) (by decide),
    calc_answers_or_clarifies.2.2.1 rows180 {} rfl,
    calc_answers_or_clarifies.2.2.2.1 rows180 { properties := ["Building 180"] }
      (by decide),
    calc_answers_or_clarifies.2.2.2.2 rows180 {} rfl⟩

/-- Claim C7: `compare_properties` raises `ValueError` exactly when given
fewer than two names, and the `calc` node never reaches that error: with two
or more validated properties it embeds the successful comparison, and with
fewer it has already returned the clarification request. -/
theorem compare_error_iff_and_unreachable :
    (∀ rows names year quarter month,
      (compare_properties rows names year quarter month
          = Except.error "At least 2 properties required for comparison")
        ↔ names.length < 2)
    ∧ (∀ rows (s : Slots),
        (validateProps rows s.properties).2 = [] →
        2 ≤ (validateProps rows s.properties).1.length →
        calcNode rows (some "compare_properties") (some s)
          = some (CalcOut.ok (ResultVal.comparison
              { properties := (validateProps rows s.properties).1.map
                  (fun n => (n, property_summary rows (some n) s.year s.quarter s.month))
                count := (validateProps rows s.properties).1.length }
              ⟨s.year, s.quarter, s.month⟩)))
    ∧ (∀ rows (s : Slots),
        (validateProps rows s.properties).2 = [] →
        (validateProps rows s.properties).1.length < 2 →
        calcNode rows (some "compare_properties") (some s)
          = some (CalcOut.clarify (comparePropsQ (list_properties rows)))) := by
  refine ⟨fun rows names year quarter month => ?_, fun rows s hsnd hlen => ?_,
    fun rows s hsnd hlen => ?_⟩
  · constructor
    · intro h
      by_contra hlt
      rw [compare_properties_ok rows names year quarter month (by omega)] at h
      exact Except.noConfusion h
    · intro h
      unfold compare_properties
      rw [if_pos h]
  · have hnlt : ¬((validateProps rows s.properties).1.length < 2) := by omega
    simp [calcNode, hsnd, hnlt,
      compare_properties_ok rows (validateProps rows s.properties).1
        s.year s.quarter s.month hlen]
  · simp [calcNode, hsnd, hlen]

/-- Two revenue rows for properties `"A"` and `"B"`. -/
def rowsAB : List Row :=
  [{ property_name := some "A", ledger_type := some "revenue", profit := 1 },
   { property_name := some "B", ledger_type := some "revenue", profit := 2 }]

/-- Extracted slots naming both properties. -/
def slotsAB : Slots := { properties := ["A", "B"] }

/-- Claim C7, witness: the error at zero names, the clarification at zero
validated properties, and the successful comparison at two, all through
`compare_error_iff_and_unreachable` at explicit inputs. -/
theorem compare_error_iff_and_unreachable_witness :
    compare_properties rowsAB [] none none none
        = Except.error "At least 2 properties required for comparison"
    ∧ calcNode rowsAB (some "compare_properties") (some {})
        = some (CalcOut.clarify (comparePropsQ (list_properties rowsAB)))
    ∧ calcNode rowsAB (some "compare_properties") (some slotsAB)
        = some (CalcOut.ok (ResultVal.comparison
            { properties := (validateProps rowsAB slotsAB.properties).1.map
                (fun n => (n, property_summary rowsAB (some n) none none none))
              count := (validateProps rowsAB slotsAB.properties).1.length }
            ⟨none, none, none⟩)) :=
  ⟨(compare_error_iff_and_unreachable.1 rowsAB [] none none none).mpr (by decide),
    compare_error_iff_and_unreachable.2.2 rowsAB {} (by decide) (by decide),
    compare_error_iff_and_unreachable.2.1 rowsAB slotsAB (by decide) (by decide)⟩

/-- Everything `search_property` returns is an existing property name. -/
lemma mem_list_properties_of_mem_search (rows : List Row) (q : String)
    (limit : Nat) (x : String) (hx : x ∈ search_property rows q limit) :
    x ∈ list_properties rows := by
  simp only [search_property] at hx
  split at hx
  · exact List.mem_of_mem_take hx
  · exact (List.mem_filter.mp (List.mem_of_mem_take hx)).1

/-- Claim C8: validation accepts an extracted name exactly when it equals an
existing property name or the top `search_property` hit equals it
case-insensitively; an accepted name is kept as an existing, canonically
cased name; a rejected name makes `calc` return the clarification naming the
first rejected one; otherwise the validated names, in order, are used. -/
theorem validation_accepts_iff :
    (∀ rows p, (canonMatch rows p).isSome = true ↔
        (p ∈ list_properties rows
          ∨ ∃ m, (search_property rows p 1).head? = some m
              ∧ strLower m = strLower p))
    ∧ (∀ rows p c, canonMatch rows p = some c →
        c ∈ list_properties rows ∧ strLower c = strLower p)
    ∧ (∀ rows intent? (s : Slots) bad rest,
        (validateProps rows s.properties).2 = bad :: rest →
        calcNode rows intent? (some s)
          = some (CalcOut.clarify (invalidPropQ bad (list_properties rows))))
    ∧ (∀ rows ps, (validateProps rows ps).2 = [] →
        (validateProps rows ps).1 = ps.filterMap (canonMatch rows)) := by
  refine ⟨fun rows p => ?_, fun rows p c h => ?_,
    fun rows intent? s bad rest h => calcNode_invalid_clarifies rows intent? s bad rest h,
    fun rows ps _ => validateProps_fst rows ps⟩
  · unfold canonMatch
    by_cases hmem : p ∈ list_properties rows
    · have hc : (list_properties rows).contains p = true := List.elem_iff.mpr hmem
      simp [hc, hmem]
    · have hc : ¬((list_properties rows).contains p = true) :=
        fun h => hmem (List.elem_iff.mp h)
      rw [if_neg hc]
      cases hsp : search_property rows p 1 with
      | nil => simp [hsp, hmem]
      | cons m ms =>
        by_cases heq : strLower m = strLower p
        · simp [hsp, hmem, heq]
        · simp [hsp, hmem, heq]
  · unfold canonMatch at h
    by_cases hmem : p ∈ list_properties rows
    · have hc : (list_properties rows).contains p = true := List.elem_iff.mpr hmem
      rw [if_pos hc] at h
      cases h
      exact ⟨hmem, rfl⟩
    · have hc : ¬((list_properties rows).contains p = true) :=
        fun hx => hmem (List.elem_iff.mp hx)
      rw [if_neg hc] at h
      cases hsp : search_property rows p 1 with
      | nil => rw [hsp] at h; exact Option.noConfusion h
      | cons m ms =>
        rw [hsp] at h
        have h2 : (if (strLower m == strLower p) = true then some m else none)
            = some c := h
        by_cases hbeq : (strLower m == strLower p) = true
        · rw [if_pos hbeq] at h2
          obtain rfl : m = c := Option.some.inj h2
          refine ⟨mem_list_properties_of_mem_search rows p 1 m ?_, by simpa using hbeq⟩
          rw [hsp]
          exact List.mem_cons_self m ms
        · rw [if_neg hbeq] at h2
          exact Option.noConfusion h2

/-- Claim C8, witness: a case-variant name is accepted and canonically
cased, and a name failing validation yields the clarification naming it,
through `validation_accepts_iff` at explicit inputs. -/
theorem validation_accepts_iff_witness :
    ("Building 180" ∈ list_properties rows180
      ∧ strLower "Building 180" = strLower "building 180")
    ∧ calcNode rows180 none (some { properties := ["zzz"] })
        = some (CalcOut.clarify (invalidPropQ "zzz" (list_properties rows180))) :=
  ⟨validation_accepts_iff.2.1 rows180 "building 180" "Building 180" (by decide),
    validation_accepts_iff.2.2.1 rows180 none { properties := ["zzz"] } "zzz" []
      (by decide)⟩

/-- Case split for the lexicographic comparator on a pair of cons cells. -/
lemma listCharLe_cons_iff (x y : Char) (xs ys : List Char) :
    listCharLe (x :: xs) (y :: ys) = true
      ↔ (x.toNat < y.toNat ∨ (x.toNat = y.toNat ∧ listCharLe xs ys = true)) := by
  simp only [listCharLe]
  by_cases h1 : x.toNat < y.toNat
  · simp [h1]
  · by_cases h2 : y.toNat < x.toNat
    · simp [h1, h2]
      omega
    · have h3 : x.toNat = y.toNat := by omega
      simp [h1, h2, h3]

/-- The lexicographic comparator is total. -/
lemma listCharLe_total : ∀ a b : List Char,
    listCharLe a b = true ∨ listCharLe b a = true := by
  intro a
  induction a with
  | nil => intro b; left; rfl
  | cons x xs ih =>
    intro b
    cases b with
    | nil => right; rfl
    | cons y ys =>
      rcases Nat.lt_trichotomy x.toNat y.toNat with h | h | h
      · left
        rw [listCharLe_cons_iff]
        exact Or.inl h
      · rcases ih ys with d | d
        · left
          rw [listCharLe_cons_iff]
          exact Or.inr ⟨h, d⟩
        · right
          rw [listCharLe_cons_iff]
          exact Or.inr ⟨h.symm, d⟩
      · right
        rw [listCharLe_cons_iff]
        exact Or.inl h

/-- The lexicographic comparator is transitive. -/
lemma listCharLe_trans : ∀ a b c : List Char,
    listCharLe a b = true → listCharLe b c = true → listCharLe a c = true := by
  intro a
  induction a with
  | nil => intro b c _ _; rfl
  | cons x xs ih =>
    intro b c hab hbc
    cases b with
    | nil => simp [listCharLe] at hab
    | cons y ys =>
      cases c with
      | nil => simp [listCharLe] at hbc
      | cons z zs =>
        rw [listCharLe_cons_iff] at hab hbc ⊢
        rcases hab with h | ⟨h, hrec⟩
        · rcases hbc with h' | ⟨h', _⟩
          · exact Or.inl (by omega)
          · exact Or.inl (by omega)
        · rcases hbc with h' | ⟨h', hrec'⟩
          · exact Or.inl (by omega)
          · exact Or.inr ⟨by omega, ih ys zs hrec hrec'⟩

instance : IsTotal String strLeProp := ⟨fun a b => listCharLe_total a.data b.data⟩

instance : IsTrans String strLeProp :=
  ⟨fun a b c hab hbc => listCharLe_trans a.data b.data c.data hab hbc⟩

/-- The property names are listed sorted and without the null entries. -/
lemma list_properties_sorted (rows : List Row) :
    (list_properties rows).Sorted strLeProp :=
  List.sorted_insertionSort strLeProp _

/-- Claim C9: `search_property` returns at most `limit` names, in sorted
order; it returns exactly the names containing the trimmed lowered query
(truncated to `limit`) when any name matches, and the first `limit` names of
the sorted property list when none does. -/
theorem search_property_matches_or_fallback (rows : List Row) (query : String)
    (limit : Nat) :
    (search_property rows query limit).length ≤ limit
    ∧ (search_property rows query limit).Sorted strLeProp
    ∧ (((list_properties rows).filter
          (fun p => codesContain (strLower p) (trimCodes (strLower query)))) ≠ [] →
        search_property rows query limit
          = ((list_properties rows).filter
              (fun p => codesContain (strLower p) (trimCodes (strLower query)))).take limit)
    ∧ (((list_properties rows).filter
          (fun p => codesContain (strLower p) (trimCodes (strLower query)))) = [] →
        search_property rows query limit = (list_properties rows).take limit) := by
  refine ⟨?_, ?_, fun h => ?_, fun h => ?_⟩
  · simp only [search_property]
    split
    · exact List.length_take_le limit _
    · exact List.length_take_le limit _
  · simp only [search_property]
    split
    · exact ((list_properties_sorted rows).sublist (List.take_sublist limit _))
    · exact (((list_properties_sorted rows).filter _).sublist (List.take_sublist limit _))
  · simp only [search_property]
    rw [if_neg]
    simp [List.isEmpty_iff, h]
  · simp only [search_property]
    rw [if_pos]
    simp [List.isEmpty_iff, h]

/-- Claim C9, witness: on the one-property dataset, a matching query returns
the filtered names and a non-matching query falls back to the first `limit`
properties, through `search_property_matches_or_fallback`. -/
theorem search_property_witness :
    search_property rows180 "building" 5
        = ((list_properties rows180).filter
            (fun p => codesContain (strLower p) (trimCodes (strLower "building")))).take 5
    ∧ search_property rows180 "zzz" 5 = (list_properties rows180).take 5 :=
  ⟨(search_property_matches_or_fallback rows180 "building" 5).2.2.1 (by decide),
    (search_property_matches_or_fallback rows180 "zzz" 5).2.2.2 (by decide)⟩

/-- Deduplication returns elements of the original list. -/
lemma mem_of_mem_uniqueFirstAux {α : Type} [DecidableEq α] :
    ∀ (l seen : List α) (x : α), x ∈ uniqueFirstAux seen l → x ∈ l := by
  intro l
  induction l with
  | nil => intro seen x hx; simp [uniqueFirstAux] at hx
  | cons a as ih =>
    intro seen x hx
    simp only [uniqueFirstAux] at hx
    by_cases h : seen.contains a = true
    · rw [if_pos h] at hx
      exact List.mem_cons_of_mem a (ih seen x hx)
    · rw [if_neg h] at hx
      rcases List.mem_cons.mp hx with rfl | hx2
      · exact List.mem_cons_self x as
      · exact List.mem_cons_of_mem a (ih _ x hx2)

/-- Pandas `head` at a nonnegative count is `take`. -/
lemma seriesHead_natCast {α : Type} (l : List α) (n : Nat) :
    seriesHead l (some (n : Int)) = l.take n := by
  simp [seriesHead, Int.toNat_natCast, Int.natCast_nonneg]

/-- Claim C6: `top_expenses` returns `[]` when the grouping column is not a
dataframe column; otherwise it returns at most `top_n` entries, sorted by
ascending summed profit, each entry carrying a key occurring in the expense
rows (timeframe- and property-filtered, `ledger_type = "expenses"`) together
with the sum of `profit` over the rows with that key. -/
theorem top_expenses_grouped_and_sorted (rows : List Row) (prop : Option String)
    (year : Option Int) (quarter month : Option String) (group_by : String)
    (n : Nat) :
    (group_by ∉ dfColumns →
      top_expenses rows prop year quarter month group_by (some (n : Int)) = [])
    ∧ (group_by ∈ dfColumns →
        (top_expenses rows prop year quarter month group_by (some (n : Int))).length ≤ n
        ∧ (top_expenses rows prop year quarter month group_by (some (n : Int))).Sorted valLe
        ∧ ∀ e ∈ top_expenses rows prop year quarter month group_by (some (n : Int)),
            e.2 = ((((filter_property (filter_timeframe rows year quarter month) prop).filter
                      (fun r => r.ledger_type == some "expenses")).filter
                      (fun r => ((colValue r group_by).getD (GKey.s none)) == e.1)).map
                    Row.profit).sum
            ∧ e.1 ∈ ((filter_property (filter_timeframe rows year quarter month) prop).filter
                  (fun r => r.ledger_type == some "expenses")).map
                  (fun r => (colValue r group_by).getD (GKey.s none))) := by
  constructor
  · intro h
    simp only [top_expenses]
    rw [if_neg]
    intro hc
    exact h (List.elem_iff.mp hc)
  · intro h
    have hc : dfColumns.contains group_by = true := List.elem_iff.mpr h
    simp only [top_expenses]
    rw [if_pos hc, seriesHead_natCast]
    refine ⟨List.length_take_le n _, ?_, ?_⟩
    · exact List.Pairwise.sublist (List.take_sublist n _)
        (List.sorted_insertionSort valLe _)
    · intro e he
      have h1 : e ∈ sortByVal (groupbySum _ group_by) := List.mem_of_mem_take he
      have h2 : e ∈ groupbySum
          ((filter_property (filter_timeframe rows year quarter month) prop).filter
            (fun r => r.ledger_type == some "expenses")) group_by :=
        (List.perm_insertionSort valLe _).mem_iff.mp h1
      simp only [groupbySum] at h2
      rcases List.mem_map.mp h2 with ⟨k, hk, hek⟩
      have hmem : k ∈ ((filter_property (filter_timeframe rows year quarter month)
            prop).filter (fun r => r.ledger_type == some "expenses")).map
            (fun r => (colValue r group_by).getD (GKey.s none)) :=
        mem_of_mem_uniqueFirstAux _ [] k hk
      rw [← hek]
      exact ⟨rfl, hmem⟩

/-- Claim C6, witness: a non-column grouping key yields `[]` and a real
grouping key yields at most one entry at `top_n = 1`, through
`top_expenses_grouped_and_sorted`. -/
theorem top_expenses_witness :
    top_expenses rows180 none none none none "foo" (some ((3 : Nat) : Int)) = []
    ∧ (top_expenses rows180 none none none none "ledger_group"
        (some ((1 : Nat) : Int))).length ≤ 1 :=
  ⟨(top_expenses_grouped_and_sorted rows180 none none none none "foo" 3).1 (by decide),
    ((top_expenses_grouped_and_sorted rows180 none none none none "ledger_group" 1).2
      (by decide)).1⟩
